import Mathlib

/-!
# Service plan control loop

A shallow embedding of `pkg/controller/controller_serviceplan.go`:
the event handlers (`servicePlanAdd`), the keyed reconciler
(`reconcileServicePlanKey`), the decision procedure (`reconcileServicePlan`)
and the dependency query (`findServiceInstancesOnServicePlan`).

The controller talks to three collaborators through interfaces: the lister
(`c.servicePlanLister`), and the typed client (`c.serviceCatalogClient`) for
listing instances and deleting plans.  They are parameters of the embedding:
a record of state transformers over an arbitrary state type.  Every call the
controller makes is appended to a call log, so that statements about which
calls are (not) made are statements about that log.
-/

namespace ServiceCatalog

/-! ## Errors -/

/-- A Go `error` value, reduced to what the control loop can observe of it:
the API status reason (empty for an error that carries no API status, as
`ReasonForError` reports `StatusReasonUnknown` for it) and the text of
`Error()`. -/
structure StatusError where
  reason : String
  message : String
deriving DecidableEq, Repr

/-- Constant `metav1.StatusReasonNotFound`. -/
def StatusReasonNotFound : String := "NotFound"

/-- Constant `metav1.StatusReasonUnknown`. -/
def StatusReasonUnknown : String := ""

/-- Modelled from the spec: `errors.IsNotFound` of the vendored
k8s.io/apimachinery package, which is not under src/.  It answers whether an
error is the not-found response of a collaborator; a nil error is not. -/
def IsNotFound (err : Option StatusError) : Bool :=
  match err with
  | none => false
  | some e => e.reason == StatusReasonNotFound

/-- The not-found error an API collaborator answers with (`errors.NewNotFound`). -/
def NewNotFound (resource name : String) : StatusError :=
  ⟨StatusReasonNotFound, resource ++ " \"" ++ name ++ "\" not found"⟩

/-! ## Data model -/

/-- The part of `metav1.ObjectMeta` the controller reads. -/
structure ObjectMeta where
  Namespace : String
  Name : String
deriving DecidableEq, Repr

/-- The part of `v1beta1.ServicePlanStatus` the controller reads. -/
structure ServicePlanStatus where
  RemovedFromBrokerCatalog : Bool
deriving DecidableEq, Repr

/-- Type `v1beta1.ServicePlan`: identity and the lifecycle flag. -/
structure ServicePlan where
  ObjectMeta : ObjectMeta
  Status : ServicePlanStatus
deriving DecidableEq, Repr

/-- Type `v1beta1.ServiceInstance`: identity and the name of the plan it
references (the field addressed as `spec.servicePlanRef.name`). -/
structure ServiceInstance where
  ObjectMeta : ObjectMeta
  ServicePlanRefName : String
deriving DecidableEq, Repr

/-- Type `v1beta1.ServiceInstanceList`. -/
structure ServiceInstanceList where
  Items : List ServiceInstance
deriving DecidableEq, Repr

/-- The part of `metav1.ListOptions` the controller sets. -/
structure ListOptions where
  FieldSelector : String
deriving DecidableEq, Repr

/-- Constant `metav1.NamespaceAll`. -/
def NamespaceAll : String := ""

/-! ## Field selectors -/

/-- Escaping of one character by `fields.EscapeValue`: backslash, comma and
equals sign get a backslash in front. -/
def escapeChar (c : Char) : List Char :=
  if c = Char.ofNat 92 ∨ c = ',' ∨ c = '=' then [Char.ofNat 92, c] else [c]

/-- Function `fields.EscapeValue`. -/
def EscapeValue (s : String) : String :=
  String.mk (s.data.flatMap escapeChar)

/-- The text of `fields.SelectorFromSet(fields.Set{field: value}).String()`
for a set with a single entry: the one term `field=value`. -/
def SelectorFromSetString (field value : String) : String :=
  field ++ "=" ++ EscapeValue value

/-! ## Key codec -/

/-- Go `strings.Split(s, "/")` on the characters of `s`: the pieces between
the separators, always at least one piece. -/
def splitOnSlash : List Char → List (List Char)
  | [] => [[]]
  | c :: cs =>
    if c = '/' then [] :: splitOnSlash cs
    else
      match splitOnSlash cs with
      | [] => [[c]]
      | p :: ps => (c :: p) :: ps

/-- Modelled from the spec: `cache.SplitMetaNamespaceKey` of the vendored
k8s.io/client-go package, which is not under src/.  A key of one part is a
name without namespace, a key of two parts is namespace and name, and any
other number of parts is the malformed key error. -/
def SplitMetaNamespaceKey (key : String) : Except StatusError (String × String) :=
  match splitOnSlash key.data with
  | [name] => .ok ("", String.mk name)
  | [ns, name] => .ok (String.mk ns, String.mk name)
  | _ => .error ⟨StatusReasonUnknown, "unexpected key format: \"" ++ key ++ "\""⟩

/-- The values an event handler can be handed as `obj interface{}`: a
pointer to a service plan, a nil pointer of that type, the tombstone
`cache.DeletedFinalStateUnknown` (which carries its key), a
`cache.ExplicitKey`, or any other value (the nil interface and values of
other types, none of which has object metadata). -/
inductive Obj where
  | servicePlan (p : ServicePlan)
  | nilServicePlan
  | deletedFinalStateUnknown (key : String)
  | explicitKey (key : String)
  | other
deriving DecidableEq, Repr

/-- Modelled from the spec: `cache.MetaNamespaceKeyFunc` of the vendored
k8s.io/client-go package, which is not under src/.  The key of an object is
`<namespace>/<name>`, or `<name>` alone when the namespace is empty.  For a
nil plan pointer the Go accessor dereferences nil; no key is computed for it
here either, and that case is reported as an error. -/
def MetaNamespaceKeyFunc (obj : Obj) : Except StatusError String :=
  match obj with
  | .explicitKey key => .ok key
  | .servicePlan p =>
    if p.ObjectMeta.Namespace.length > 0 then
      .ok (p.ObjectMeta.Namespace ++ "/" ++ p.ObjectMeta.Name)
    else .ok p.ObjectMeta.Name
  | .nilServicePlan => .error ⟨StatusReasonUnknown, "nil pointer dereference"⟩
  | _ => .error ⟨StatusReasonUnknown, "object has no meta"⟩

/-- Modelled from the spec: `cache.DeletionHandlingMetaNamespaceKeyFunc` of
the vendored k8s.io/client-go package, which is not under src/: the key a
tombstone carries, and `MetaNamespaceKeyFunc` otherwise. -/
def DeletionHandlingMetaNamespaceKeyFunc (obj : Obj) : Except StatusError String :=
  match obj with
  | .deletedFinalStateUnknown key => .ok key
  | _ => MetaNamespaceKeyFunc obj

/-- Modelled from the spec: `Add` of the work queue (vendored
k8s.io/client-go workqueue, not under src/), as a deduplicating list of
pending keys. -/
def queueAdd (queue : List String) (key : String) : List String :=
  if key ∈ queue then queue else queue ++ [key]

/-- Method `servicePlanAdd`: compute the key of the object and add it to the
service plan queue; when no key can be computed the queue is left alone.
(For a nil plan pointer the Go handler does not return: the key function
dereferences nil.  No key is queued then either, which is all the model
records of that case.) -/
def servicePlanAdd (obj : Obj) (servicePlanQueue : List String) : List String :=
  match DeletionHandlingMetaNamespaceKeyFunc obj with
  | .error _ => servicePlanQueue
  | .ok key => queueAdd servicePlanQueue key

/-- Method `servicePlanUpdate`. -/
def servicePlanUpdate (_oldObj newObj : Obj) (servicePlanQueue : List String) : List String :=
  servicePlanAdd newObj servicePlanQueue

/-! ## Collaborators and the call log -/

/-- One call of the controller to a collaborator. -/
inductive Call where
  /-- Call `c.servicePlanLister.ServicePlans(ns).Get(name)`. -/
  | get (ns name : String)
  /-- Call `c.serviceCatalogClient.ServiceInstances(ns).List(opts)`. -/
  | list (ns : String) (opts : ListOptions)
  /-- Call `c.serviceCatalogClient.ServicePlans(ns).Delete(name, &DeleteOptions{})`. -/
  | delete (ns name : String)
deriving DecidableEq, Repr

/-- Whether a call is a delete call. -/
def Call.isDelete : Call → Bool
  | .delete _ _ => true
  | _ => false

/-- Whether a call is a dependency query (a list call). -/
def Call.isList : Call → Bool
  | .list _ _ => true
  | _ => false

/-- Whether a call is a lister lookup. -/
def Call.isGet : Call → Bool
  | .get _ _ => true
  | _ => false

/-- The collaborators of the controller over a state `σ` of the outside
world.  Each answers a call from the current state and gives the state after
the call; nothing is assumed about them. -/
structure Collaborators (σ : Type) where
  /-- Lookup `servicePlanLister.ServicePlans(ns).Get(name)`. -/
  planGet : String → String → σ → Except StatusError ServicePlan × σ
  /-- Query `serviceCatalogClient.ServiceInstances(ns).List(opts)`. -/
  instanceList : String → ListOptions → σ → Except StatusError ServiceInstanceList × σ
  /-- Operation `serviceCatalogClient.ServicePlans(ns).Delete(name, opts)`. -/
  planDelete : String → String → σ → Option StatusError × σ

/-- The calls made so far and the current state of the outside world. -/
structure Trace (σ : Type) where
  calls : List Call
  state : σ

/-! ## The control loop -/

/-- Method `findServiceInstancesOnServicePlan`: list, over all namespaces,
the instances selected by the field selector built from the plan name. -/
def findServiceInstancesOnServicePlan {σ : Type} (c : Collaborators σ)
    (servicePlan : ServicePlan) (t : Trace σ) :
    Except StatusError ServiceInstanceList × Trace σ :=
  let fieldSelector := SelectorFromSetString "spec.servicePlanRef.name" servicePlan.ObjectMeta.Name
  let listOpts : ListOptions := { FieldSelector := fieldSelector }
  let r := c.instanceList NamespaceAll listOpts t.state
  (r.1, { calls := t.calls ++ [Call.list NamespaceAll listOpts], state := r.2 })

/-- Method `reconcileServicePlan`. -/
def reconcileServicePlan {σ : Type} (c : Collaborators σ)
    (servicePlan : ServicePlan) (t : Trace σ) : Option StatusError × Trace σ :=
  if !servicePlan.Status.RemovedFromBrokerCatalog then (none, t)
  else
    match findServiceInstancesOnServicePlan c servicePlan t with
    | (.error err, t1) => (some err, t1)
    | (.ok serviceInstances, t1) =>
      if serviceInstances.Items.length != 0 then (none, t1)
      else
        let ns := servicePlan.ObjectMeta.Namespace
        let r := c.planDelete ns servicePlan.ObjectMeta.Name t1.state
        (r.1, { calls := t1.calls ++ [Call.delete ns servicePlan.ObjectMeta.Name], state := r.2 })

/-- Method `reconcileServicePlanKey`. -/
def reconcileServicePlanKey {σ : Type} (c : Collaborators σ)
    (key : String) (t : Trace σ) : Option StatusError × Trace σ :=
  match SplitMetaNamespaceKey key with
  | .error err => (some err, t)
  | .ok (ns, name) =>
    let r := c.planGet ns name t.state
    let t1 : Trace σ := { calls := t.calls ++ [Call.get ns name], state := r.2 }
    match r.1 with
    | .error err => if IsNotFound (some err) then (none, t1) else (some err, t1)
    | .ok plan => reconcileServicePlan c plan t1

/-- The call `findServiceInstancesOnServicePlan` logs for a plan. -/
def dependencyQueryCall (servicePlan : ServicePlan) : Call :=
  Call.list NamespaceAll
    { FieldSelector := SelectorFromSetString "spec.servicePlanRef.name" servicePlan.ObjectMeta.Name }

/-- The call the final step of `reconcileServicePlan` logs for a plan. -/
def deleteCall (servicePlan : ServicePlan) : Call :=
  Call.delete servicePlan.ObjectMeta.Namespace servicePlan.ObjectMeta.Name

/-- Successive invocations of `reconcileServicePlanKey` for one key, as a
worker that is handed the same key `n` times makes them: the results in
order of invocation, and the call log and world state at the end. -/
def reconcileTimes {σ : Type} (c : Collaborators σ) (key : String) :
    Nat → Trace σ → List (Option StatusError) × Trace σ
  | 0, t => ([], t)
  | n + 1, t =>
    let r := reconcileServicePlanKey c key t
    let rest := reconcileTimes c key n r.2
    (r.1 :: rest.1, rest.2)

/-! ## The delete handler -/

/-- One line handed to the logger: the namespace and name of the context
builder (`pretty.NewContextBuilder`) and the message text. -/
structure LogLine where
  Namespace : String
  Name : String
  message : String
deriving DecidableEq, Repr

/-- What an event handler can act on: the work queue of service plan keys,
the collaborators behind the call log, and the log output. -/
structure HandlerState (σ : Type) where
  servicePlanQueue : List String
  trace : Trace σ
  log : List LogLine

/-- Go type assertion `obj.(*v1beta1.ServicePlan)` in its two-valued form: the
pointer (`none` for nil) and whether the value has that type. -/
def Obj.toServicePlan : Obj → Option ServicePlan × Bool
  | .servicePlan p => (some p, true)
  | .nilServicePlan => (none, true)
  | _ => (none, false)

/-- Method `servicePlanDelete`: return at once for a nil plan or a value of
another type; otherwise write one log line (at verbosity 4). -/
def servicePlanDelete {σ : Type} (obj : Obj) (st : HandlerState σ) : HandlerState σ :=
  match Obj.toServicePlan obj with
  | (none, _) => st
  | (some _, false) => st
  | (some servicePlan, true) =>
    { st with log := st.log ++
        [{ Namespace := servicePlan.ObjectMeta.Namespace,
           Name := servicePlan.ObjectMeta.Name,
           message := "Received delete event, no further processing will occur" }] }

/-! ## An in-memory outside world -/

/-- Modelled from the spec: the outside world behind the collaborator
interfaces (the informer cache read by the lister and the API server store
written by the client), none of which is under src/.  The store holds the
plans and the instances.  The cache is what a lister that lags behind the
store answers from (`World.collaborators`); a lister that is up to date
answers from the stored plans (`World.storeCollaborators`). -/
structure World where
  cache : List ServicePlan
  plans : List ServicePlan
  instances : List ServiceInstance
deriving DecidableEq, Repr

/-- Whether a plan has the given namespace and name. -/
def ServicePlan.named (ns name : String) (p : ServicePlan) : Bool :=
  p.ObjectMeta.Namespace == ns && p.ObjectMeta.Name == name

/-- Whether an instance is selected by a list call: the namespace matches
(every namespace matches `NamespaceAll`) and the field selector is empty or
is the equality term on the referenced plan name. -/
def ServiceInstance.selected (ns : String) (opts : ListOptions) (i : ServiceInstance) : Bool :=
  (ns == NamespaceAll || i.ObjectMeta.Namespace == ns) &&
  (opts.FieldSelector == "" ||
    opts.FieldSelector == SelectorFromSetString "spec.servicePlanRef.name" i.ServicePlanRefName)

/-- The world with the plan of the given namespace and name removed from the
store; cache and instances are untouched. -/
def World.removePlan (ns name : String) (w : World) : World :=
  { w with plans := w.plans.filter (fun p => !ServicePlan.named ns name p) }

/-- Modelled from the spec: the collaborators over the in-memory world, with
a lister whose cache is a snapshot that the calls made here do not refresh.
The lister answers from the cache (not-found when the plan is not cached);
the list call returns the selected instances; delete removes the plan from
the store and reports not-found when the store does not hold it. -/
def World.collaborators : Collaborators World where
  planGet := fun ns name w =>
    match w.cache.find? (ServicePlan.named ns name) with
    | some p => (.ok p, w)
    | none => (.error (NewNotFound "serviceplans" name), w)
  instanceList := fun ns opts w =>
    (.ok { Items := w.instances.filter (ServiceInstance.selected ns opts) }, w)
  planDelete := fun ns name w =>
    if w.plans.any (ServicePlan.named ns name) then
      (none, w.removePlan ns name)
    else (some (NewNotFound "serviceplans" name), w)

/-- Modelled from the spec: the collaborators over the in-memory world with a
lister that is up to date with the store: a lookup answers from the stored
plans, so that a plan deleted on a prior pass is not found on the next one
(spec 4.3, step 2).  The list and delete calls are those of
`World.collaborators`. -/
def World.storeCollaborators : Collaborators World where
  planGet := fun ns name w =>
    match w.plans.find? (ServicePlan.named ns name) with
    | some p => (.ok p, w)
    | none => (.error (NewNotFound "serviceplans" name), w)
  instanceList := World.collaborators.instanceList
  planDelete := World.collaborators.planDelete

/-! ## Scenario fixtures -/

/-- Plan `ns/p1`, removed from the broker catalog. -/
def planRemoved : ServicePlan :=
  { ObjectMeta := { Namespace := "ns", Name := "p1" }, Status := { RemovedFromBrokerCatalog := true } }

/-- Plan `ns/p1`, still in the broker catalog. -/
def planActive : ServicePlan :=
  { ObjectMeta := { Namespace := "ns", Name := "p1" }, Status := { RemovedFromBrokerCatalog := false } }

/-- An instance in namespace `dev` that references plan `p1`. -/
def instanceOnP1 : ServiceInstance :=
  { ObjectMeta := { Namespace := "dev", Name := "i1" }, ServicePlanRefName := "p1" }

/-- World: the removed plan is cached and stored, no instance references it. -/
def worldRemovedFree : World :=
  { cache := [planRemoved], plans := [planRemoved], instances := [] }

/-- World: the removed plan is cached and stored, one instance references it. -/
def worldRemovedInUse : World :=
  { cache := [planRemoved], plans := [planRemoved], instances := [instanceOnP1] }

/-- World: the active plan is cached and stored, one instance references it. -/
def worldActiveInUse : World :=
  { cache := [planActive], plans := [planActive], instances := [instanceOnP1] }

/-- World: the removed plan is still cached, but the store no longer holds it
(someone else deleted it and the cache has not caught up). -/
def worldRemovedGone : World :=
  { cache := [planRemoved], plans := [], instances := [] }

/-- World: nothing cached, nothing stored. -/
def worldEmpty : World :=
  { cache := [], plans := [], instances := [] }

/-- Collaborators over a trivial state whose every call fails with the given
error, as when the API server cannot be reached. -/
def failingCollaborators (e : StatusError) : Collaborators Unit where
  planGet := fun _ _ s => (.error e, s)
  instanceList := fun _ _ s => (.error e, s)
  planDelete := fun _ _ s => (some e, s)

/-- Collaborators over a trivial state: the lister returns the removed plan
`ns/p1`, the dependency query fails with the given error, delete succeeds. -/
def queryFailingCollaborators (e : StatusError) : Collaborators Unit where
  planGet := fun _ _ s => (.ok planRemoved, s)
  instanceList := fun _ _ s => (.error e, s)
  planDelete := fun _ _ s => (none, s)

/-- Collaborators over a trivial state: the lister returns the removed plan
`ns/p1`, no instance is listed, delete fails with the given error. -/
def deleteFailingCollaborators (e : StatusError) : Collaborators Unit where
  planGet := fun _ _ s => (.ok planRemoved, s)
  instanceList := fun _ _ s => (.ok { Items := [] }, s)
  planDelete := fun _ _ s => (some e, s)

/-- The error a refused connection gives; it carries no API status. -/
def connectionRefused : StatusError :=
  { reason := StatusReasonUnknown, message := "connection refused" }

/-- Plan `other/p1`, removed from the broker catalog: the name of
`planRemoved` in another namespace. -/
def planRemovedOther : ServicePlan :=
  { ObjectMeta := { Namespace := "other", Name := "p1" },
    Status := { RemovedFromBrokerCatalog := true } }

/-- Plan `other/p1`, still in the broker catalog. -/
def planActiveOther : ServicePlan :=
  { ObjectMeta := { Namespace := "other", Name := "p1" },
    Status := { RemovedFromBrokerCatalog := false } }

/-- Plan `ns/p2`, removed from the broker catalog. -/
def planRemovedP2 : ServicePlan :=
  { ObjectMeta := { Namespace := "ns", Name := "p2" },
    Status := { RemovedFromBrokerCatalog := true } }

/-- An instance in namespace `dev` that references plan `p2`. -/
def instanceOnP2 : ServiceInstance :=
  { ObjectMeta := { Namespace := "dev", Name := "i2" }, ServicePlanRefName := "p2" }

/-- World: plans `ns/p1` and `ns/p2` are cached and stored, both removed from
the catalog; one instance references `p2`, none references `p1`. -/
def worldTwoPlans : World :=
  { cache := [planRemoved, planRemovedP2], plans := [planRemoved, planRemovedP2],
    instances := [instanceOnP2] }

/-- A handler state with one pending key, an empty call log over the world
`worldRemovedFree`, and no log output. -/
def handlerStateIdle : HandlerState World :=
  { servicePlanQueue := ["ns/p2"], trace := { calls := [], state := worldRemovedFree }, log := [] }

/-! ## Shape of one invocation -/

section Shape

variable {σ : Type} (c : Collaborators σ)

theorem findServiceInstancesOnServicePlan_calls (plan : ServicePlan) (t : Trace σ) :
    (findServiceInstancesOnServicePlan c plan t).2.calls = t.calls ++ [dependencyQueryCall plan] :=
  rfl

theorem reconcileServicePlan_active (plan : ServicePlan) (t : Trace σ)
    (h : plan.Status.RemovedFromBrokerCatalog = false) :
    reconcileServicePlan c plan t = (none, t) := by
  simp [reconcileServicePlan, h]

theorem reconcileServicePlan_query_error (plan : ServicePlan) (t : Trace σ) (e : StatusError)
    (h : plan.Status.RemovedFromBrokerCatalog = true)
    (hq : (findServiceInstancesOnServicePlan c plan t).1 = .error e) :
    reconcileServicePlan c plan t = (some e, (findServiceInstancesOnServicePlan c plan t).2) := by
  rcases hf : findServiceInstancesOnServicePlan c plan t with ⟨r, t1⟩
  rw [hf] at hq
  simp only at hq
  subst hq
  simp [reconcileServicePlan, h, hf]

theorem reconcileServicePlan_in_use (plan : ServicePlan) (t : Trace σ) (l : ServiceInstanceList)
    (h : plan.Status.RemovedFromBrokerCatalog = true)
    (hq : (findServiceInstancesOnServicePlan c plan t).1 = .ok l)
    (hl : l.Items.length ≠ 0) :
    reconcileServicePlan c plan t = (none, (findServiceInstancesOnServicePlan c plan t).2) := by
  rcases hf : findServiceInstancesOnServicePlan c plan t with ⟨r, t1⟩
  rw [hf] at hq
  simp only at hq
  subst hq
  simp [reconcileServicePlan, h, hf, hl]

theorem reconcileServicePlan_free (plan : ServicePlan) (t : Trace σ) (l : ServiceInstanceList)
    (h : plan.Status.RemovedFromBrokerCatalog = true)
    (hq : (findServiceInstancesOnServicePlan c plan t).1 = .ok l)
    (hl : l.Items.length = 0) :
    reconcileServicePlan c plan t =
      ((c.planDelete plan.ObjectMeta.Namespace plan.ObjectMeta.Name
          (findServiceInstancesOnServicePlan c plan t).2.state).1,
       { calls := t.calls ++ [dependencyQueryCall plan, deleteCall plan],
         state := (c.planDelete plan.ObjectMeta.Namespace plan.ObjectMeta.Name
          (findServiceInstancesOnServicePlan c plan t).2.state).2 }) := by
  rcases hf : findServiceInstancesOnServicePlan c plan t with ⟨r, t1⟩
  have hc := findServiceInstancesOnServicePlan_calls c plan t
  rw [hf] at hq hc
  simp only at hq hc
  subst hq
  simp [reconcileServicePlan, h, hf, hl, hc, deleteCall]

theorem reconcileServicePlanKey_malformed (key : String) (t : Trace σ) (err : StatusError)
    (hkey : SplitMetaNamespaceKey key = .error err) :
    reconcileServicePlanKey c key t = (some err, t) := by
  simp [reconcileServicePlanKey, hkey]

theorem reconcileServicePlanKey_get_error (key ns name : String) (t : Trace σ) (err : StatusError)
    (hkey : SplitMetaNamespaceKey key = .ok (ns, name))
    (hget : (c.planGet ns name t.state).1 = .error err) :
    reconcileServicePlanKey c key t =
      (if IsNotFound (some err) then none else some err,
       { calls := t.calls ++ [Call.get ns name], state := (c.planGet ns name t.state).2 }) := by
  simp only [reconcileServicePlanKey, hkey, hget]
  split <;> rfl

theorem reconcileServicePlanKey_get_ok (key ns name : String) (t : Trace σ) (plan : ServicePlan)
    (hkey : SplitMetaNamespaceKey key = .ok (ns, name))
    (hget : (c.planGet ns name t.state).1 = .ok plan) :
    reconcileServicePlanKey c key t =
      reconcileServicePlan c plan
        { calls := t.calls ++ [Call.get ns name], state := (c.planGet ns name t.state).2 } := by
  simp only [reconcileServicePlanKey, hkey, hget]

end Shape

/-! ## The deletion decision -/

/-- C1: for a key that decodes and any collaborators in any state,
`reconcileServicePlanKey` issues a delete call if and only if the lister
returns the plan, the plan is flagged as removed from the broker catalog, and
the dependency query succeeds with zero instances; any delete call issued is
the one addressed to that plan; and when the flag is set and the query returns
at least one instance, the result is nil and no delete call is made. -/
theorem reconcileServicePlanKey_delete_iff {σ : Type} (c : Collaborators σ) (s : σ)
    (key ns name : String) (hkey : SplitMetaNamespaceKey key = .ok (ns, name)) :
    ((∃ call ∈ (reconcileServicePlanKey c key ⟨[], s⟩).2.calls, call.isDelete = true) ↔
      ∃ plan l, (c.planGet ns name s).1 = .ok plan ∧
        plan.Status.RemovedFromBrokerCatalog = true ∧
        (findServiceInstancesOnServicePlan c plan
          ⟨[Call.get ns name], (c.planGet ns name s).2⟩).1 = .ok l ∧
        l.Items.length = 0) ∧
    (∀ call ∈ (reconcileServicePlanKey c key ⟨[], s⟩).2.calls, call.isDelete = true →
      ∃ plan, (c.planGet ns name s).1 = .ok plan ∧ call = deleteCall plan) ∧
    (∀ plan l, (c.planGet ns name s).1 = .ok plan →
      plan.Status.RemovedFromBrokerCatalog = true →
      (findServiceInstancesOnServicePlan c plan
          ⟨[Call.get ns name], (c.planGet ns name s).2⟩).1 = .ok l →
      1 ≤ l.Items.length →
      (reconcileServicePlanKey c key ⟨[], s⟩).1 = none ∧
      ∀ call ∈ (reconcileServicePlanKey c key ⟨[], s⟩).2.calls, call.isDelete = false) := by
  rcases hget : (c.planGet ns name s).1 with err | plan
  · -- the lookup failed: the only call is the lookup
    have h := reconcileServicePlanKey_get_error c key ns name ⟨[], s⟩ err hkey hget
    simp [h, Call.isDelete]
  · have h := reconcileServicePlanKey_get_ok c key ns name ⟨[], s⟩ plan hkey hget
    simp only [List.nil_append] at h
    rw [h]
    rcases hflag : plan.Status.RemovedFromBrokerCatalog with _ | _
    · -- the plan is still in the catalog
      rw [reconcileServicePlan_active c plan _ hflag]
      simp [Call.isDelete, hflag]
    · rcases hq : (findServiceInstancesOnServicePlan c plan
          ⟨[Call.get ns name], (c.planGet ns name s).2⟩).1 with e | l
      · -- the dependency query failed
        rw [reconcileServicePlan_query_error c plan _ e hflag hq,
          findServiceInstancesOnServicePlan_calls]
        simp [Call.isDelete, dependencyQueryCall, hflag, hq]
        intro p l hp _ hq2
        subst hp
        rw [hq] at hq2
        cases hq2
      · by_cases hl : l.Items.length = 0
        · -- nothing references the plan: delete
          rw [reconcileServicePlan_free c plan _ l hflag hq hl]
          have hnil : l.Items = [] := List.length_eq_zero.mp hl
          simp [Call.isDelete, dependencyQueryCall, deleteCall, hflag, hq, hnil]
          intro p l2 hp _ hq2
          subst hp
          rw [hq] at hq2
          cases hq2
          exact hnil
        · -- the plan is still referenced
          rw [reconcileServicePlan_in_use c plan _ l hflag hq hl,
            findServiceInstancesOnServicePlan_calls]
          have hne : l.Items ≠ [] := fun h0 => hl (by simp [h0])
          simp [Call.isDelete, dependencyQueryCall, hflag, hq, hne]

/-- Witness of C1 at key `ns/p1`: with the removed plan unreferenced a delete
call is issued, and with one instance on it the result is nil without one. -/
theorem reconcileServicePlanKey_delete_iff_witness :
    SplitMetaNamespaceKey "ns/p1" = .ok ("ns", "p1") ∧
    (∃ call ∈ (reconcileServicePlanKey World.collaborators "ns/p1" ⟨[], worldRemovedFree⟩).2.calls,
      call.isDelete = true) ∧
    ((reconcileServicePlanKey World.collaborators "ns/p1" ⟨[], worldRemovedInUse⟩).1 = none ∧
      ∀ call ∈ (reconcileServicePlanKey World.collaborators "ns/p1" ⟨[], worldRemovedInUse⟩).2.calls,
        call.isDelete = false) :=
  ⟨rfl,
   (reconcileServicePlanKey_delete_iff World.collaborators worldRemovedFree "ns/p1" "ns" "p1"
      rfl).1.mpr ⟨planRemoved, ⟨[]⟩, rfl, rfl, rfl, rfl⟩,
   (reconcileServicePlanKey_delete_iff World.collaborators worldRemovedInUse "ns/p1" "ns" "p1"
      rfl).2.2 planRemoved ⟨[instanceOnP1]⟩ rfl rfl rfl (by decide)⟩

/-- C2: for a plan flagged as removed whose dependency query returns an empty
list, one invocation of `reconcileServicePlan` makes exactly the dependency
query followed by one delete call, the delete call carries the namespace and
name of the plan itself, and when the delete succeeds the result is nil. -/
theorem reconcileServicePlan_deletes_once {σ : Type} (c : Collaborators σ) (s : σ)
    (plan : ServicePlan) (l : ServiceInstanceList)
    (hflag : plan.Status.RemovedFromBrokerCatalog = true)
    (hq : (findServiceInstancesOnServicePlan c plan ⟨[], s⟩).1 = .ok l)
    (hl : l.Items = []) :
    (reconcileServicePlan c plan ⟨[], s⟩).2.calls =
      [dependencyQueryCall plan,
       Call.delete plan.ObjectMeta.Namespace plan.ObjectMeta.Name] ∧
    ((reconcileServicePlan c plan ⟨[], s⟩).2.calls.filter Call.isList).length = 1 ∧
    (reconcileServicePlan c plan ⟨[], s⟩).2.calls.filter Call.isDelete =
      [Call.delete plan.ObjectMeta.Namespace plan.ObjectMeta.Name] ∧
    ((c.planDelete plan.ObjectMeta.Namespace plan.ObjectMeta.Name
        (findServiceInstancesOnServicePlan c plan ⟨[], s⟩).2.state).1 = none →
      (reconcileServicePlan c plan ⟨[], s⟩).1 = none) := by
  have hlen : l.Items.length = 0 := by simp [hl]
  rw [reconcileServicePlan_free c plan _ l hflag hq hlen]
  simp [dependencyQueryCall, deleteCall, Call.isList, Call.isDelete]

/-- Witness of C2: plan `ns/p1`, removed and unreferenced, is deleted by one
delete call addressed to namespace `ns` and name `p1`, with result nil. -/
theorem reconcileServicePlan_deletes_once_witness :
    (reconcileServicePlan World.collaborators planRemoved ⟨[], worldRemovedFree⟩).2.calls.filter
        Call.isDelete = [Call.delete "ns" "p1"] ∧
    (reconcileServicePlan World.collaborators planRemoved ⟨[], worldRemovedFree⟩).1 = none :=
  ⟨(reconcileServicePlan_deletes_once World.collaborators worldRemovedFree planRemoved ⟨[]⟩
      rfl rfl rfl).2.2.1,
   (reconcileServicePlan_deletes_once World.collaborators worldRemovedFree planRemoved ⟨[]⟩
      rfl rfl rfl).2.2.2 rfl⟩

/-- C3, as the code has it: once `reconcileServicePlan` reaches the delete
call (plan flagged as removed, dependency query empty), its result is exactly
what the delete call answered: nil when the delete succeeds, and the delete
error otherwise, a not-found error included. -/
theorem reconcileServicePlan_returns_delete_result {σ : Type} (c : Collaborators σ) (s : σ)
    (plan : ServicePlan) (l : ServiceInstanceList)
    (hflag : plan.Status.RemovedFromBrokerCatalog = true)
    (hq : (findServiceInstancesOnServicePlan c plan ⟨[], s⟩).1 = .ok l)
    (hl : l.Items = []) :
    (reconcileServicePlan c plan ⟨[], s⟩).1 =
      (c.planDelete plan.ObjectMeta.Namespace plan.ObjectMeta.Name
        (findServiceInstancesOnServicePlan c plan ⟨[], s⟩).2.state).1 := by
  have hlen : l.Items.length = 0 := by simp [hl]
  rw [reconcileServicePlan_free c plan _ l hflag hq hlen]

/-- Witness of the amended C3: a delete that fails with an arbitrary error
makes `reconcileServicePlan` return that error. -/
theorem reconcileServicePlan_returns_delete_result_witness :
    (reconcileServicePlan (deleteFailingCollaborators connectionRefused) planRemoved ⟨[], ()⟩).1 =
      some connectionRefused :=
  reconcileServicePlan_returns_delete_result (deleteFailingCollaborators connectionRefused) ()
    planRemoved ⟨[]⟩ rfl rfl rfl

/-- Counterexample to C3 as stated: the lister and the dependency query let
the removed plan `ns/p1` through to the delete call, and the delete call
reports not-found (someone else deleted the plan).  `reconcileServicePlan`
returns that not-found error, not nil. -/
theorem reconcileServicePlan_delete_not_found_returned :
    ((deleteFailingCollaborators (NewNotFound "serviceplans" "p1")).planDelete "ns" "p1" ()).1 =
      some (NewNotFound "serviceplans" "p1") ∧
    IsNotFound (some (NewNotFound "serviceplans" "p1")) = true ∧
    (reconcileServicePlan (deleteFailingCollaborators (NewNotFound "serviceplans" "p1"))
        planRemoved ⟨[], ()⟩).2.calls =
      [dependencyQueryCall planRemoved, Call.delete "ns" "p1"] ∧
    (reconcileServicePlan (deleteFailingCollaborators (NewNotFound "serviceplans" "p1"))
        planRemoved ⟨[], ()⟩).1 = some (NewNotFound "serviceplans" "p1") ∧
    (reconcileServicePlan (deleteFailingCollaborators (NewNotFound "serviceplans" "p1"))
        planRemoved ⟨[], ()⟩).1 ≠ none := by
  refine ⟨rfl, rfl, rfl, rfl, ?_⟩
  decide

/-- C4: for a plan that is not flagged as removed from the broker catalog,
whatever the collaborators hold, `reconcileServicePlan` returns nil, makes no
call at all (no dependency query, no delete) and leaves the state as it was. -/
theorem reconcileServicePlan_active_no_calls {σ : Type} (c : Collaborators σ) (s : σ)
    (plan : ServicePlan) (hflag : plan.Status.RemovedFromBrokerCatalog = false) :
    (reconcileServicePlan c plan ⟨[], s⟩).1 = none ∧
    (reconcileServicePlan c plan ⟨[], s⟩).2.calls = [] ∧
    (reconcileServicePlan c plan ⟨[], s⟩).2.state = s := by
  rw [reconcileServicePlan_active c plan _ hflag]
  exact ⟨rfl, rfl, rfl⟩

/-- Witness of C4: the active plan `ns/p1` with an instance referencing it. -/
theorem reconcileServicePlan_active_no_calls_witness :
    (reconcileServicePlan World.collaborators planActive ⟨[], worldActiveInUse⟩).1 = none ∧
    (reconcileServicePlan World.collaborators planActive ⟨[], worldActiveInUse⟩).2.calls = [] ∧
    (reconcileServicePlan World.collaborators planActive ⟨[], worldActiveInUse⟩).2.state =
      worldActiveInUse :=
  reconcileServicePlan_active_no_calls World.collaborators worldActiveInUse planActive rfl

/-- C5: for a key that decodes, when the lister lookup answers with a
not-found error, `reconcileServicePlanKey` returns nil and the lookup is the
only call it makes: no dependency query and no delete call. -/
theorem reconcileServicePlanKey_not_found {σ : Type} (c : Collaborators σ) (s : σ)
    (key ns name : String) (e : StatusError)
    (hkey : SplitMetaNamespaceKey key = .ok (ns, name))
    (hget : (c.planGet ns name s).1 = .error e)
    (hnf : IsNotFound (some e) = true) :
    (reconcileServicePlanKey c key ⟨[], s⟩).1 = none ∧
    (reconcileServicePlanKey c key ⟨[], s⟩).2.calls = [Call.get ns name] ∧
    (∀ call ∈ (reconcileServicePlanKey c key ⟨[], s⟩).2.calls,
      call.isList = false ∧ call.isDelete = false) := by
  rw [reconcileServicePlanKey_get_error c key ns name ⟨[], s⟩ e hkey hget]
  simp [hnf, Call.isList, Call.isDelete]

/-- Witness of C5: key `ns/p1` looked up in an empty cache. -/
theorem reconcileServicePlanKey_not_found_witness :
    (reconcileServicePlanKey World.collaborators "ns/p1" ⟨[], worldEmpty⟩).1 = none ∧
    (reconcileServicePlanKey World.collaborators "ns/p1" ⟨[], worldEmpty⟩).2.calls =
      [Call.get "ns" "p1"] :=
  ⟨(reconcileServicePlanKey_not_found World.collaborators worldEmpty "ns/p1" "ns" "p1"
      (NewNotFound "serviceplans" "p1") rfl rfl rfl).1,
   (reconcileServicePlanKey_not_found World.collaborators worldEmpty "ns/p1" "ns" "p1"
      (NewNotFound "serviceplans" "p1") rfl rfl rfl).2.1⟩

/-- C6: for a plan flagged as removed, when the dependency query fails with an
error `E`, `reconcileServicePlan` returns `E` itself (so a non-nil error whose
message contains the message of `E`), and the dependency query is the only
call it makes: no delete call is issued. -/
theorem reconcileServicePlan_query_error_returned {σ : Type} (c : Collaborators σ) (s : σ)
    (plan : ServicePlan) (E : StatusError)
    (hflag : plan.Status.RemovedFromBrokerCatalog = true)
    (hq : (findServiceInstancesOnServicePlan c plan ⟨[], s⟩).1 = .error E) :
    (reconcileServicePlan c plan ⟨[], s⟩).1 = some E ∧
    (∃ err, (reconcileServicePlan c plan ⟨[], s⟩).1 = some err ∧
      E.message.data <:+: err.message.data) ∧
    (reconcileServicePlan c plan ⟨[], s⟩).2.calls = [dependencyQueryCall plan] ∧
    (∀ call ∈ (reconcileServicePlan c plan ⟨[], s⟩).2.calls, call.isDelete = false) := by
  rw [reconcileServicePlan_query_error c plan _ E hflag hq,
    findServiceInstancesOnServicePlan_calls]
  refine ⟨rfl, ⟨E, rfl, List.infix_refl _⟩, rfl, ?_⟩
  simp [dependencyQueryCall, Call.isDelete]

/-- Witness of C6: the dependency query fails with `connection refused`. -/
theorem reconcileServicePlan_query_error_returned_witness :
    (∃ err, (reconcileServicePlan (queryFailingCollaborators connectionRefused) planRemoved
        ⟨[], ()⟩).1 = some err ∧ "connection refused".data <:+: err.message.data) ∧
    (∀ call ∈ (reconcileServicePlan (queryFailingCollaborators connectionRefused) planRemoved
        ⟨[], ()⟩).2.calls, call.isDelete = false) :=
  ⟨(reconcileServicePlan_query_error_returned (queryFailingCollaborators connectionRefused) ()
      planRemoved connectionRefused rfl rfl).2.1,
   (reconcileServicePlan_query_error_returned (queryFailingCollaborators connectionRefused) ()
      planRemoved connectionRefused rfl rfl).2.2.2⟩

/-! ## Keys -/

/-- C8: for a key whose decoding fails, `reconcileServicePlanKey` returns the
decoding error (a non-nil result) and makes no call to the lister, to the
dependency query or to the delete operation; the state is left as it was. -/
theorem reconcileServicePlanKey_malformed_key {σ : Type} (c : Collaborators σ) (s : σ)
    (key : String) (err : StatusError)
    (hkey : SplitMetaNamespaceKey key = .error err) :
    (reconcileServicePlanKey c key ⟨[], s⟩).1 = some err ∧
    (reconcileServicePlanKey c key ⟨[], s⟩).1 ≠ none ∧
    (reconcileServicePlanKey c key ⟨[], s⟩).2.calls = [] ∧
    (reconcileServicePlanKey c key ⟨[], s⟩).2.state = s := by
  rw [reconcileServicePlanKey_malformed c key _ err hkey]
  exact ⟨rfl, by simp, rfl, rfl⟩

/-- Witness of C8: the key `a/b/c` has three parts, so it does not decode. -/
theorem reconcileServicePlanKey_malformed_key_witness :
    SplitMetaNamespaceKey "a/b/c" =
      .error ⟨StatusReasonUnknown, "unexpected key format: \"a/b/c\""⟩ ∧
    (reconcileServicePlanKey World.collaborators "a/b/c" ⟨[], worldRemovedFree⟩).1 ≠ none ∧
    (reconcileServicePlanKey World.collaborators "a/b/c" ⟨[], worldRemovedFree⟩).2.calls = [] :=
  ⟨rfl,
   (reconcileServicePlanKey_malformed_key World.collaborators worldRemovedFree "a/b/c"
      ⟨StatusReasonUnknown, "unexpected key format: \"a/b/c\""⟩ rfl).2.1,
   (reconcileServicePlanKey_malformed_key World.collaborators worldRemovedFree "a/b/c"
      ⟨StatusReasonUnknown, "unexpected key format: \"a/b/c\""⟩ rfl).2.2.1⟩

/-! ## Error propagation -/

/-- C10: for a key that decodes, every error a collaborator call answers with
is the result of `reconcileServicePlanKey`, the not-found answer of the lookup
apart: a lookup error `E` that is not a not-found is returned, with the lookup
as the only call (no dependency query, no delete); a dependency query error is
returned; and a delete error is returned. -/
theorem reconcileServicePlanKey_errors_returned {σ : Type} (c : Collaborators σ) (s : σ)
    (key ns name : String) (hkey : SplitMetaNamespaceKey key = .ok (ns, name)) :
    (∀ E, (c.planGet ns name s).1 = .error E → IsNotFound (some E) = false →
      (reconcileServicePlanKey c key ⟨[], s⟩).1 = some E ∧
      (reconcileServicePlanKey c key ⟨[], s⟩).2.calls = [Call.get ns name]) ∧
    (∀ plan E, (c.planGet ns name s).1 = .ok plan →
      plan.Status.RemovedFromBrokerCatalog = true →
      (findServiceInstancesOnServicePlan c plan
        ⟨[Call.get ns name], (c.planGet ns name s).2⟩).1 = .error E →
      (reconcileServicePlanKey c key ⟨[], s⟩).1 = some E) ∧
    (∀ plan l E, (c.planGet ns name s).1 = .ok plan →
      plan.Status.RemovedFromBrokerCatalog = true →
      (findServiceInstancesOnServicePlan c plan
        ⟨[Call.get ns name], (c.planGet ns name s).2⟩).1 = .ok l →
      l.Items = [] →
      (c.planDelete plan.ObjectMeta.Namespace plan.ObjectMeta.Name
        (findServiceInstancesOnServicePlan c plan
          ⟨[Call.get ns name], (c.planGet ns name s).2⟩).2.state).1 = some E →
      (reconcileServicePlanKey c key ⟨[], s⟩).1 = some E) := by
  refine ⟨?_, ?_, ?_⟩
  · intro E hget hnf
    rw [reconcileServicePlanKey_get_error c key ns name ⟨[], s⟩ E hkey hget]
    simp [hnf]
  · intro plan E hget hflag hq
    have h := reconcileServicePlanKey_get_ok c key ns name ⟨[], s⟩ plan hkey hget
    simp only [List.nil_append] at h
    rw [h, reconcileServicePlan_query_error c plan _ E hflag hq]
  · intro plan l E hget hflag hq hl hdel
    have h := reconcileServicePlanKey_get_ok c key ns name ⟨[], s⟩ plan hkey hget
    simp only [List.nil_append] at h
    have hlen : l.Items.length = 0 := by simp [hl]
    rw [h, reconcileServicePlan_free c plan _ l hflag hq hlen]
    exact hdel

/-- Witness of C10 at key `ns/p1`: a refused connection at the lookup, at the
dependency query and at the delete is, each time, the result. -/
theorem reconcileServicePlanKey_errors_returned_witness :
    ((reconcileServicePlanKey (failingCollaborators connectionRefused) "ns/p1" ⟨[], ()⟩).1 =
        some connectionRefused ∧
      (reconcileServicePlanKey (failingCollaborators connectionRefused) "ns/p1" ⟨[], ()⟩).2.calls =
        [Call.get "ns" "p1"]) ∧
    (reconcileServicePlanKey (queryFailingCollaborators connectionRefused) "ns/p1" ⟨[], ()⟩).1 =
      some connectionRefused ∧
    (reconcileServicePlanKey (deleteFailingCollaborators connectionRefused) "ns/p1" ⟨[], ()⟩).1 =
      some connectionRefused :=
  ⟨(reconcileServicePlanKey_errors_returned (failingCollaborators connectionRefused) ()
      "ns/p1" "ns" "p1" rfl).1 connectionRefused rfl rfl,
   (reconcileServicePlanKey_errors_returned (queryFailingCollaborators connectionRefused) ()
      "ns/p1" "ns" "p1" rfl).2.1 planRemoved connectionRefused rfl rfl rfl,
   (reconcileServicePlanKey_errors_returned (deleteFailingCollaborators connectionRefused) ()
      "ns/p1" "ns" "p1" rfl).2.2 planRemoved ⟨[]⟩ connectionRefused rfl rfl rfl rfl rfl⟩

/-! ## Key round trip -/

theorem splitOnSlash_of_not_mem (cs : List Char) (h : '/' ∉ cs) : splitOnSlash cs = [cs] := by
  induction cs with
  | nil => rfl
  | cons c cs ih =>
    have hc : c ≠ '/' := fun hc => h (by simp [hc])
    have hcs : '/' ∉ cs := fun hmem => h (List.mem_cons_of_mem _ hmem)
    simp [splitOnSlash, hc, ih hcs]

theorem splitOnSlash_append_slash (a b : List Char) (h : '/' ∉ a) :
    splitOnSlash (a ++ '/' :: b) = a :: splitOnSlash b := by
  induction a with
  | nil => simp [splitOnSlash]
  | cons c a ih =>
    have hc : c ≠ '/' := fun hc => h (by simp [hc])
    have ha : '/' ∉ a := fun hmem => h (List.mem_cons_of_mem _ hmem)
    simp [splitOnSlash, hc, ih ha]

theorem keyFunc_servicePlan (ns name : String) (st : ServicePlanStatus) :
    DeletionHandlingMetaNamespaceKeyFunc
        (.servicePlan { ObjectMeta := { Namespace := ns, Name := name }, Status := st }) =
      .ok (if ns = "" then name else ns ++ "/" ++ name) := by
  by_cases hns : ns = ""
  · subst hns
    simp [DeletionHandlingMetaNamespaceKeyFunc, MetaNamespaceKeyFunc]
  · have hlen : 0 < ns.length := by
      rcases ns with ⟨cs⟩
      cases cs with
      | nil => exact absurd rfl hns
      | cons c cs => simp [String.length]
    simp [DeletionHandlingMetaNamespaceKeyFunc, MetaNamespaceKeyFunc, hns, hlen]

theorem splitMetaNamespaceKey_encoded (ns name : String)
    (hns : '/' ∉ ns.data) (hname : '/' ∉ name.data) :
    SplitMetaNamespaceKey (if ns = "" then name else ns ++ "/" ++ name) = .ok (ns, name) := by
  by_cases h : ns = ""
  · subst h
    simp [SplitMetaNamespaceKey, splitOnSlash_of_not_mem _ hname]
  · have hdata : (ns ++ "/" ++ name).data = ns.data ++ '/' :: name.data := by
      simp [String.data_append]
    simp [h, SplitMetaNamespaceKey, hdata, splitOnSlash_append_slash _ _ hns,
      splitOnSlash_of_not_mem _ hname]

/-- C9: for a plan whose namespace (possibly empty) and non-empty name hold no
slash, the key `servicePlanAdd` computes and queues is `<namespace>/<name>`
when the namespace is non-empty and `<name>` when it is empty; decoding that
key as `reconcileServicePlanKey` does gives back exactly that namespace and
name; hence two such plans with the same key have the same namespace and
name. -/
theorem servicePlan_key_round_trip (ns name : String) (st : ServicePlanStatus)
    (hns : '/' ∉ ns.data) (hname : '/' ∉ name.data) (_hne : name ≠ "") :
    DeletionHandlingMetaNamespaceKeyFunc
        (.servicePlan { ObjectMeta := { Namespace := ns, Name := name }, Status := st }) =
      .ok (if ns = "" then name else ns ++ "/" ++ name) ∧
    servicePlanAdd
        (.servicePlan { ObjectMeta := { Namespace := ns, Name := name }, Status := st }) [] =
      [if ns = "" then name else ns ++ "/" ++ name] ∧
    SplitMetaNamespaceKey (if ns = "" then name else ns ++ "/" ++ name) = .ok (ns, name) ∧
    (∀ (ns2 name2 : String) (st2 : ServicePlanStatus),
      '/' ∉ ns2.data → '/' ∉ name2.data → name2 ≠ "" →
      DeletionHandlingMetaNamespaceKeyFunc
          (.servicePlan { ObjectMeta := { Namespace := ns2, Name := name2 }, Status := st2 }) =
        DeletionHandlingMetaNamespaceKeyFunc
          (.servicePlan { ObjectMeta := { Namespace := ns, Name := name }, Status := st }) →
      ns2 = ns ∧ name2 = name) := by
  refine ⟨keyFunc_servicePlan ns name st, ?_, splitMetaNamespaceKey_encoded ns name hns hname, ?_⟩
  · simp [servicePlanAdd, keyFunc_servicePlan, queueAdd]
  · intro ns2 name2 st2 hns2 hname2 _ hkey
    rw [keyFunc_servicePlan, keyFunc_servicePlan] at hkey
    have hk : (if ns2 = "" then name2 else ns2 ++ "/" ++ name2) =
        (if ns = "" then name else ns ++ "/" ++ name) := by
      injection hkey
    have h2 := splitMetaNamespaceKey_encoded ns2 name2 hns2 hname2
    rw [hk, splitMetaNamespaceKey_encoded ns name hns hname] at h2
    injection h2 with h2
    injection h2 with h3 h4
    exact ⟨h3.symm, h4.symm⟩

/-- Witness of C9: the namespaced plan `ns/p1` has key `ns/p1`, which decodes
to namespace `ns` and name `p1`. -/
theorem servicePlan_key_round_trip_witness :
    servicePlanAdd (.servicePlan planRemoved) [] = ["ns/p1"] ∧
    SplitMetaNamespaceKey "ns/p1" = .ok ("ns", "p1") :=
  ⟨(servicePlan_key_round_trip "ns" "p1" ⟨true⟩ (by decide) (by decide) (by decide)).2.1,
   (servicePlan_key_round_trip "ns" "p1" ⟨true⟩ (by decide) (by decide) (by decide)).2.2.1⟩

/-! ## Repeated invocations -/

theorem reconcileServicePlan_frame {σ : Type} (c : Collaborators σ) (plan : ServicePlan)
    (cs : List Call) (s : σ) :
    reconcileServicePlan c plan ⟨cs, s⟩ =
      ((reconcileServicePlan c plan ⟨[], s⟩).1,
       { calls := cs ++ (reconcileServicePlan c plan ⟨[], s⟩).2.calls,
         state := (reconcileServicePlan c plan ⟨[], s⟩).2.state }) := by
  simp only [reconcileServicePlan, findServiceInstancesOnServicePlan]
  cases plan.Status.RemovedFromBrokerCatalog
  · simp
  · simp only [Bool.not_true, Bool.false_eq_true, if_false, List.nil_append]
    rcases (c.instanceList NamespaceAll _ s).1 with e | l
    · simp
    · simp only
      split <;> simp

theorem reconcileServicePlanKey_frame {σ : Type} (c : Collaborators σ) (key : String)
    (cs : List Call) (s : σ) :
    reconcileServicePlanKey c key ⟨cs, s⟩ =
      ((reconcileServicePlanKey c key ⟨[], s⟩).1,
       { calls := cs ++ (reconcileServicePlanKey c key ⟨[], s⟩).2.calls,
         state := (reconcileServicePlanKey c key ⟨[], s⟩).2.state }) := by
  rcases hkey : SplitMetaNamespaceKey key with err | ⟨ns, name⟩
  · simp [reconcileServicePlanKey, hkey]
  · rcases hget : (c.planGet ns name s).1 with e | plan
    · rw [reconcileServicePlanKey_get_error c key ns name ⟨cs, s⟩ e hkey hget,
        reconcileServicePlanKey_get_error c key ns name ⟨[], s⟩ e hkey hget]
      simp
    · rw [reconcileServicePlanKey_get_ok c key ns name ⟨cs, s⟩ plan hkey hget,
        reconcileServicePlanKey_get_ok c key ns name ⟨[], s⟩ plan hkey hget]
      simp only [List.nil_append]
      rw [reconcileServicePlan_frame c plan (cs ++ [Call.get ns name]),
        reconcileServicePlan_frame c plan [Call.get ns name]]
      simp

/-- When one invocation leaves the outside world as it found it, any number
of successive invocations repeat its result and its calls. -/
theorem reconcileTimes_of_state_fixed {σ : Type} (c : Collaborators σ) (key : String) (s : σ)
    (hfix : (reconcileServicePlanKey c key ⟨[], s⟩).2.state = s) (n : Nat) (cs : List Call) :
    reconcileTimes c key n ⟨cs, s⟩ =
      (List.replicate n (reconcileServicePlanKey c key ⟨[], s⟩).1,
       { calls := cs ++ (List.replicate n (reconcileServicePlanKey c key ⟨[], s⟩).2.calls).flatten,
         state := s }) := by
  induction n generalizing cs with
  | zero => simp [reconcileTimes]
  | succ n ih =>
    simp only [reconcileTimes]
    rw [reconcileServicePlanKey_frame c key cs s]
    simp only [hfix]
    rw [ih]
    simp [List.replicate_succ]

/-! ### In the in-memory world -/

theorem world_planGet_state (ns name : String) (w : World) :
    (World.collaborators.planGet ns name w).2 = w := by
  simp only [World.collaborators]
  split <;> rfl

theorem world_planGet_cached (ns name : String) (w : World) (p : ServicePlan)
    (h : w.cache.find? (ServicePlan.named ns name) = some p) :
    (World.collaborators.planGet ns name w).1 = .ok p := by
  simp only [World.collaborators, h]

theorem world_planGet_uncached (ns name : String) (w : World)
    (h : w.cache.find? (ServicePlan.named ns name) = none) :
    (World.collaborators.planGet ns name w).1 = .error (NewNotFound "serviceplans" name) := by
  simp only [World.collaborators, h]

theorem world_find_result (p : ServicePlan) (cs : List Call) (w : World) :
    (findServiceInstancesOnServicePlan World.collaborators p ⟨cs, w⟩).1 =
      .ok { Items := w.instances.filter (ServiceInstance.selected NamespaceAll
        { FieldSelector := SelectorFromSetString "spec.servicePlanRef.name" p.ObjectMeta.Name }) } :=
  rfl

theorem world_find_state (p : ServicePlan) (cs : List Call) (w : World) :
    (findServiceInstancesOnServicePlan World.collaborators p ⟨cs, w⟩).2.state = w :=
  rfl

theorem world_planDelete_gone (ns name : String) (w : World)
    (h : w.plans.any (ServicePlan.named ns name) = false) :
    World.collaborators.planDelete ns name w = (some (NewNotFound "serviceplans" name), w) := by
  simp only [World.collaborators, h]
  rfl

theorem world_planDelete_state (ns name : String) (w : World) :
    (World.collaborators.planDelete ns name w).2 = w.removePlan ns name := by
  by_cases h : w.plans.any (ServicePlan.named ns name) = true
  · simp only [World.collaborators, h, if_true]
  · have h0 : w.plans.any (ServicePlan.named ns name) = false := by simpa using h
    rw [world_planDelete_gone ns name w h0]
    have hall : w.plans.filter (fun p => !ServicePlan.named ns name p) = w.plans := by
      rw [List.filter_eq_self]
      intro q hq
      have := List.any_eq_false.mp h0 q hq
      simp [this]
    simp [World.removePlan, hall]

/-- One invocation in the in-memory world either leaves the world as it was,
or it found the cached plan flagged and unreferenced, logged the delete call
for it and removed it from the store. -/
theorem world_reconcile_state (key : String) (w : World) :
    (reconcileServicePlanKey World.collaborators key ⟨[], w⟩).2.state = w ∨
    ∃ ns name p, SplitMetaNamespaceKey key = .ok (ns, name) ∧
      w.cache.find? (ServicePlan.named ns name) = some p ∧
      p.Status.RemovedFromBrokerCatalog = true ∧
      w.instances.filter (ServiceInstance.selected NamespaceAll
        { FieldSelector := SelectorFromSetString "spec.servicePlanRef.name" p.ObjectMeta.Name }) = [] ∧
      deleteCall p ∈ (reconcileServicePlanKey World.collaborators key ⟨[], w⟩).2.calls ∧
      (reconcileServicePlanKey World.collaborators key ⟨[], w⟩).2.state =
        w.removePlan p.ObjectMeta.Namespace p.ObjectMeta.Name := by
  rcases hkey : SplitMetaNamespaceKey key with err | ⟨ns, name⟩
  · left
    rw [reconcileServicePlanKey_malformed _ key _ err hkey]
  · rcases hfind : w.cache.find? (ServicePlan.named ns name) with _ | p
    · left
      rw [reconcileServicePlanKey_get_error _ key ns name ⟨[], w⟩ _ hkey
        (world_planGet_uncached ns name w hfind)]
      exact world_planGet_state ns name w
    · have h := reconcileServicePlanKey_get_ok _ key ns name ⟨[], w⟩ p hkey
        (world_planGet_cached ns name w p hfind)
      simp only [List.nil_append, world_planGet_state] at h
      rcases hflag : p.Status.RemovedFromBrokerCatalog with _ | _
      · left
        rw [h, reconcileServicePlan_active _ p _ hflag]
      · by_cases hl : w.instances.filter (ServiceInstance.selected NamespaceAll
          { FieldSelector :=
              SelectorFromSetString "spec.servicePlanRef.name" p.ObjectMeta.Name }) = []
        · right
          refine ⟨ns, name, p, rfl, hfind, hflag, hl, ?_, ?_⟩
          · rw [h, reconcileServicePlan_free _ p _ _ hflag (world_find_result p _ w)
              (by simp [hl])]
            simp
          · rw [h, reconcileServicePlan_free _ p _ _ hflag (world_find_result p _ w)
              (by simp [hl])]
            simp only [world_find_state]
            exact world_planDelete_state _ _ w
        · left
          rw [h, reconcileServicePlan_in_use _ p _ _ hflag (world_find_result p _ w)
            (by simpa using hl)]
          exact world_find_state p _ w

theorem named_eq (ns name : String) (p : ServicePlan) (h : ServicePlan.named ns name p = true) :
    p.ObjectMeta.Namespace = ns ∧ p.ObjectMeta.Name = name := by
  simpa [ServicePlan.named] using h

/-! ### With a lister that reads the store -/

theorem store_planGet_state (ns name : String) (w : World) :
    (World.storeCollaborators.planGet ns name w).2 = w := by
  simp only [World.storeCollaborators]
  split <;> rfl

theorem store_planGet_found (ns name : String) (w : World) (p : ServicePlan)
    (h : w.plans.find? (ServicePlan.named ns name) = some p) :
    (World.storeCollaborators.planGet ns name w).1 = .ok p := by
  simp only [World.storeCollaborators, h]

theorem store_planGet_missing (ns name : String) (w : World)
    (h : w.plans.find? (ServicePlan.named ns name) = none) :
    (World.storeCollaborators.planGet ns name w).1 =
      .error (NewNotFound "serviceplans" name) := by
  simp only [World.storeCollaborators, h]

theorem store_find_result (p : ServicePlan) (cs : List Call) (w : World) :
    (findServiceInstancesOnServicePlan World.storeCollaborators p ⟨cs, w⟩).1 =
      .ok { Items := w.instances.filter (ServiceInstance.selected NamespaceAll
        { FieldSelector := SelectorFromSetString "spec.servicePlanRef.name" p.ObjectMeta.Name }) } :=
  rfl

theorem store_find_state (p : ServicePlan) (cs : List Call) (w : World) :
    (findServiceInstancesOnServicePlan World.storeCollaborators p ⟨cs, w⟩).2.state = w :=
  rfl

theorem store_planDelete_stored (ns name : String) (w : World)
    (h : w.plans.any (ServicePlan.named ns name) = true) :
    World.storeCollaborators.planDelete ns name w = (none, w.removePlan ns name) := by
  simp only [World.storeCollaborators, World.collaborators, h, if_true]

theorem removePlan_find (ns name : String) (w : World) :
    (w.removePlan ns name).plans.find? (ServicePlan.named ns name) = none := by
  simp [World.removePlan, List.find?_eq_none, List.mem_filter]

/-- A lookup that finds nothing in the store ends the invocation: result nil,
the lookup as the only call, the world as it was. -/
theorem store_reconcile_missing (key ns name : String) (w : World)
    (hkey : SplitMetaNamespaceKey key = .ok (ns, name))
    (hfind : w.plans.find? (ServicePlan.named ns name) = none) :
    reconcileServicePlanKey World.storeCollaborators key ⟨[], w⟩ =
      (none, { calls := [Call.get ns name], state := w }) := by
  rw [reconcileServicePlanKey_get_error _ key ns name ⟨[], w⟩ _ hkey
    (store_planGet_missing ns name w hfind)]
  simp [IsNotFound, NewNotFound, StatusReasonNotFound, store_planGet_state]

/-- One invocation against the store-reading lister either leaves the world
as it was and issues no delete call, or it returns nil after one delete call
that removed the keyed plan from the store. -/
theorem store_reconcile_cases (key : String) (w : World) :
    ((reconcileServicePlanKey World.storeCollaborators key ⟨[], w⟩).2.state = w ∧
      ∀ call ∈ (reconcileServicePlanKey World.storeCollaborators key ⟨[], w⟩).2.calls,
        call.isDelete = false) ∨
    ∃ ns name, SplitMetaNamespaceKey key = .ok (ns, name) ∧
      (reconcileServicePlanKey World.storeCollaborators key ⟨[], w⟩).1 = none ∧
      (reconcileServicePlanKey World.storeCollaborators key ⟨[], w⟩).2.state =
        w.removePlan ns name ∧
      (reconcileServicePlanKey World.storeCollaborators key ⟨[], w⟩).2.calls.filter
        Call.isDelete = [Call.delete ns name] := by
  rcases hkey : SplitMetaNamespaceKey key with err | ⟨ns, name⟩
  · left
    rw [reconcileServicePlanKey_malformed _ key _ err hkey]
    simp
  · rcases hfind : w.plans.find? (ServicePlan.named ns name) with _ | p
    · left
      rw [store_reconcile_missing key ns name w hkey hfind]
      simp [Call.isDelete]
    · have h := reconcileServicePlanKey_get_ok _ key ns name ⟨[], w⟩ p hkey
        (store_planGet_found ns name w p hfind)
      simp only [List.nil_append, store_planGet_state] at h
      rcases hflag : p.Status.RemovedFromBrokerCatalog with _ | _
      · left
        rw [h, reconcileServicePlan_active _ p _ hflag]
        simp [Call.isDelete]
      · by_cases hl : w.instances.filter (ServiceInstance.selected NamespaceAll
          { FieldSelector :=
              SelectorFromSetString "spec.servicePlanRef.name" p.ObjectMeta.Name }) = []
        · right
          obtain ⟨hns, hname⟩ := named_eq ns name p (List.find?_some hfind)
          have hany : w.plans.any (ServicePlan.named ns name) = true :=
            List.any_eq_true.mpr ⟨p, List.mem_of_find?_eq_some hfind, List.find?_some hfind⟩
          refine ⟨ns, name, rfl, ?_⟩
          rw [h, reconcileServicePlan_free _ p _ _ hflag (store_find_result p _ w)
            (by simp [hl])]
          simp only [store_find_state, hns, hname, store_planDelete_stored ns name w hany]
          simp [Call.isDelete, dependencyQueryCall, deleteCall, hns, hname]
        · left
          rw [h, reconcileServicePlan_in_use _ p _ _ hflag (store_find_result p _ w)
            (by simpa using hl), findServiceInstancesOnServicePlan_calls]
          exact ⟨rfl, by simp [Call.isDelete, dependencyQueryCall]⟩

/-- The invocation that follows one invocation leaves the world as it finds
it, returns what the first returned, and issues no delete call. -/
theorem store_reconcile_again (key : String) (w : World) :
    (reconcileServicePlanKey World.storeCollaborators key
      ⟨[], (reconcileServicePlanKey World.storeCollaborators key ⟨[], w⟩).2.state⟩).2.state =
      (reconcileServicePlanKey World.storeCollaborators key ⟨[], w⟩).2.state ∧
    (reconcileServicePlanKey World.storeCollaborators key
      ⟨[], (reconcileServicePlanKey World.storeCollaborators key ⟨[], w⟩).2.state⟩).1 =
      (reconcileServicePlanKey World.storeCollaborators key ⟨[], w⟩).1 ∧
    (∀ call ∈ (reconcileServicePlanKey World.storeCollaborators key
      ⟨[], (reconcileServicePlanKey World.storeCollaborators key ⟨[], w⟩).2.state⟩).2.calls,
      call.isDelete = false) := by
  rcases store_reconcile_cases key w with ⟨hst, hno⟩ | ⟨ns, name, hkey, hres, hst, _⟩
  · rw [hst]
    exact ⟨hst, rfl, hno⟩
  · rw [hst, store_reconcile_missing key ns name _ hkey (removePlan_find ns name w), hres]
    exact ⟨rfl, rfl, by simp [Call.isDelete]⟩

theorem filter_isDelete_flatten_replicate (m : Nat) (l : List Call)
    (hno : ∀ call ∈ l, call.isDelete = false) :
    (List.replicate m l).flatten.filter Call.isDelete = [] := by
  rw [List.filter_eq_nil_iff]
  intro call hmem
  simp only [List.mem_flatten, List.mem_replicate] at hmem
  obtain ⟨l2, ⟨_, rfl⟩, hcall⟩ := hmem
  simp [hno call hcall]

/-- C7: against an in-memory world whose lister reads the store, for any
key, any state and any number `n` of successive invocations, at least one:
the final state is the state a single invocation leaves; every invocation
returns what the first returned (so no error comes from a repeated no-op, and
the invocations after a delete return nil like the deleting one); and the
delete calls of all `n` invocations together are those of the first, at most
one (no duplicate delete). -/
theorem reconcileTimes_idempotent (key : String) (w : World) (n : Nat) (hn : 1 ≤ n) :
    (reconcileTimes World.storeCollaborators key n ⟨[], w⟩).2.state =
      (reconcileServicePlanKey World.storeCollaborators key ⟨[], w⟩).2.state ∧
    (reconcileTimes World.storeCollaborators key n ⟨[], w⟩).1 =
      List.replicate n (reconcileServicePlanKey World.storeCollaborators key ⟨[], w⟩).1 ∧
    (reconcileTimes World.storeCollaborators key n ⟨[], w⟩).2.calls.filter Call.isDelete =
      (reconcileServicePlanKey World.storeCollaborators key ⟨[], w⟩).2.calls.filter
        Call.isDelete ∧
    ((reconcileTimes World.storeCollaborators key n ⟨[], w⟩).2.calls.filter
      Call.isDelete).length ≤ 1 := by
  obtain ⟨m, rfl⟩ : ∃ m, n = m + 1 := ⟨n - 1, by omega⟩
  obtain ⟨hfix, hres, hno⟩ := store_reconcile_again key w
  have hrest := reconcileTimes_of_state_fixed World.storeCollaborators key _ hfix m
    (reconcileServicePlanKey World.storeCollaborators key ⟨[], w⟩).2.calls
  have hcalls : (reconcileTimes World.storeCollaborators key (m + 1) ⟨[], w⟩).2.calls.filter
      Call.isDelete =
      (reconcileServicePlanKey World.storeCollaborators key ⟨[], w⟩).2.calls.filter
        Call.isDelete := by
    show (reconcileTimes World.storeCollaborators key m
      ⟨(reconcileServicePlanKey World.storeCollaborators key ⟨[], w⟩).2.calls,
       (reconcileServicePlanKey World.storeCollaborators key ⟨[], w⟩).2.state⟩).2.calls.filter
      Call.isDelete = _
    rw [hrest]
    simp [List.filter_append, filter_isDelete_flatten_replicate m _ hno]
  refine ⟨?_, ?_, hcalls, ?_⟩
  · simp only [reconcileTimes]
    exact congrArg (fun x => x.2.state) hrest
  · show (reconcileServicePlanKey World.storeCollaborators key ⟨[], w⟩).1 ::
      (reconcileTimes World.storeCollaborators key m
        ⟨(reconcileServicePlanKey World.storeCollaborators key ⟨[], w⟩).2.calls,
         (reconcileServicePlanKey World.storeCollaborators key ⟨[], w⟩).2.state⟩).1 = _
    rw [hrest, hres, List.replicate_succ]
  · rw [hcalls]
    rcases store_reconcile_cases key w with ⟨_, hno1⟩ | ⟨ns, name, _, _, _, hdel⟩
    · have hnil : (reconcileServicePlanKey World.storeCollaborators key ⟨[], w⟩).2.calls.filter
          Call.isDelete = [] := by
        rw [List.filter_eq_nil_iff]
        intro call hcall
        simp [hno1 call hcall]
      simp [hnil]
    · simp [hdel]

/-- Witness of C7 at key `ns/p1` and three invocations: with the removed plan
unreferenced, all three return nil, one delete call is made, and the plan is
gone from the store; with an instance on the plan, all three return nil and
no delete call is made. -/
theorem reconcileTimes_idempotent_witness :
    (reconcileTimes World.storeCollaborators "ns/p1" 3 ⟨[], worldRemovedFree⟩).1 =
      [none, none, none] ∧
    (reconcileTimes World.storeCollaborators "ns/p1" 3 ⟨[], worldRemovedFree⟩).2.calls.filter
      Call.isDelete = [Call.delete "ns" "p1"] ∧
    (reconcileTimes World.storeCollaborators "ns/p1" 3 ⟨[], worldRemovedFree⟩).2.state.plans =
      [] ∧
    (reconcileTimes World.storeCollaborators "ns/p1" 3 ⟨[], worldRemovedInUse⟩).1 =
      [none, none, none] ∧
    (reconcileTimes World.storeCollaborators "ns/p1" 3 ⟨[], worldRemovedInUse⟩).2.calls.filter
      Call.isDelete = [] :=
  ⟨(reconcileTimes_idempotent "ns/p1" worldRemovedFree 3 (by decide)).2.1,
   (reconcileTimes_idempotent "ns/p1" worldRemovedFree 3 (by decide)).2.2.1,
   congrArg World.plans (reconcileTimes_idempotent "ns/p1" worldRemovedFree 3 (by decide)).1,
   (reconcileTimes_idempotent "ns/p1" worldRemovedInUse 3 (by decide)).2.1,
   (reconcileTimes_idempotent "ns/p1" worldRemovedInUse 3 (by decide)).2.2.1⟩

/-! ## The dependency query -/

theorem escapeValue_of_plain (s : String)
    (h : ∀ ch ∈ s.data, ch ≠ Char.ofNat 92 ∧ ch ≠ ',' ∧ ch ≠ '=') : EscapeValue s = s := by
  have hflat : ∀ cs : List Char, (∀ ch ∈ cs, ch ≠ Char.ofNat 92 ∧ ch ≠ ',' ∧ ch ≠ '=') →
      cs.flatMap escapeChar = cs := by
    intro cs
    induction cs with
    | nil => intro _; rfl
    | cons ch cs ih =>
      intro hcs
      have hch := hcs ch (List.mem_cons_self _ _)
      have hrest := ih (fun x hx => hcs x (List.mem_cons_of_mem _ hx))
      simp [List.flatMap_cons, escapeChar, hch.1, hch.2.1, hch.2.2, hrest]
  simp [EscapeValue, hflat s.data h]

/-- C11, as the code has it: for every plan, `findServiceInstancesOnServicePlan`
makes exactly one call, a list call scoped to all namespaces (the empty
namespace) whose field selector is the single equality term on the field
`spec.servicePlanRef.name` with the escaped plan name as value; for a plan
name without backslash, comma and equals sign that selector is literally
`spec.servicePlanRef.name=<planName>`; and the answer of that call is the
result. -/
theorem findServiceInstancesOnServicePlan_list_call {σ : Type} (c : Collaborators σ) (s : σ)
    (plan : ServicePlan) :
    (findServiceInstancesOnServicePlan c plan ⟨[], s⟩).2.calls =
      [Call.list NamespaceAll
        { FieldSelector := "spec.servicePlanRef.name=" ++ EscapeValue plan.ObjectMeta.Name }] ∧
    NamespaceAll = "" ∧
    ((∀ ch ∈ plan.ObjectMeta.Name.data, ch ≠ Char.ofNat 92 ∧ ch ≠ ',' ∧ ch ≠ '=') →
      (findServiceInstancesOnServicePlan c plan ⟨[], s⟩).2.calls =
        [Call.list "" { FieldSelector := "spec.servicePlanRef.name=" ++ plan.ObjectMeta.Name }]) ∧
    (findServiceInstancesOnServicePlan c plan ⟨[], s⟩).1 =
      (c.instanceList NamespaceAll
        { FieldSelector := "spec.servicePlanRef.name=" ++ EscapeValue plan.ObjectMeta.Name } s).1 := by
  refine ⟨rfl, rfl, ?_, rfl⟩
  intro hplain
  simp [findServiceInstancesOnServicePlan, SelectorFromSetString, NamespaceAll,
    escapeValue_of_plain _ hplain]

/-- Witness of the amended C11: for plan `ns/p1` the dependency query is the
list call over all namespaces with selector `spec.servicePlanRef.name=p1`. -/
theorem findServiceInstancesOnServicePlan_list_call_witness :
    (findServiceInstancesOnServicePlan World.collaborators planRemoved
        ⟨[], worldRemovedFree⟩).2.calls =
      [Call.list "" { FieldSelector := "spec.servicePlanRef.name=p1" }] :=
  (findServiceInstancesOnServicePlan_list_call World.collaborators worldRemovedFree
    planRemoved).2.2.1 (by decide)

/-- Counterexample to C11 as stated: for plan `ns/p1` the field selector of the
dependency query is `spec.servicePlanRef.name=p1`; it is not
`spec.planRef.name=p1`. -/
theorem findServiceInstancesOnServicePlan_not_planRef :
    (findServiceInstancesOnServicePlan World.collaborators planRemoved
        ⟨[], worldRemovedFree⟩).2.calls =
      [Call.list "" { FieldSelector := "spec.servicePlanRef.name=p1" }] ∧
    (findServiceInstancesOnServicePlan World.collaborators planRemoved
        ⟨[], worldRemovedFree⟩).2.calls ≠
      [Call.list "" { FieldSelector := "spec.planRef.name=p1" }] := by
  refine ⟨rfl, ?_⟩
  decide

/-! ## Frame of one invocation -/

/-- C12: in the in-memory world, for every key and every state,
`reconcileServicePlanKey` leaves the instances (and the lister cache) as they
were, creates no plan, and either leaves the stored plans as they were or
removes exactly the plans with the namespace and name the key decodes to:
every stored plan not named by the key is still stored afterwards. -/
theorem reconcileServicePlanKey_only_deletes_keyed_plan (key : String) (w : World) :
    (reconcileServicePlanKey World.collaborators key ⟨[], w⟩).2.state.instances = w.instances ∧
    (reconcileServicePlanKey World.collaborators key ⟨[], w⟩).2.state.cache = w.cache ∧
    ((reconcileServicePlanKey World.collaborators key ⟨[], w⟩).2.state.plans = w.plans ∨
      ∃ ns name, SplitMetaNamespaceKey key = .ok (ns, name) ∧
        (reconcileServicePlanKey World.collaborators key ⟨[], w⟩).2.state.plans =
          w.plans.filter (fun p => !ServicePlan.named ns name p)) ∧
    (∀ q ∈ w.plans,
      (∀ ns name, SplitMetaNamespaceKey key = .ok (ns, name) →
        ServicePlan.named ns name q = false) →
      q ∈ (reconcileServicePlanKey World.collaborators key ⟨[], w⟩).2.state.plans) ∧
    (∀ q ∈ (reconcileServicePlanKey World.collaborators key ⟨[], w⟩).2.state.plans,
      q ∈ w.plans) := by
  rcases world_reconcile_state key w with h | ⟨ns, name, p, hkey, hfind, _, _, _, hst⟩
  · rw [h]
    exact ⟨rfl, rfl, Or.inl rfl, fun q hq _ => hq, fun q hq => hq⟩
  · obtain ⟨hns, hname⟩ := named_eq ns name p (List.find?_some hfind)
    rw [hst, hns, hname]
    refine ⟨rfl, rfl, Or.inr ⟨ns, name, hkey, rfl⟩, ?_, ?_⟩
    · intro q hq hother
      simp [World.removePlan, List.mem_filter, hq, hother ns name hkey]
    · intro q hq
      simp only [World.removePlan, List.mem_filter] at hq
      exact hq.1

/-- Witness of C12 at key `ns/p1` in a world that stores `ns/p1` and `ns/p2`:
the invocation deletes `ns/p1`, and `ns/p2` and the instances are still
there. -/
theorem reconcileServicePlanKey_only_deletes_keyed_plan_witness :
    (reconcileServicePlanKey World.collaborators "ns/p1" ⟨[], worldTwoPlans⟩).2.state.plans =
      [planRemovedP2] ∧
    (reconcileServicePlanKey World.collaborators "ns/p1" ⟨[], worldTwoPlans⟩).2.state.instances =
      [instanceOnP2] ∧
    planRemovedP2 ∈
      (reconcileServicePlanKey World.collaborators "ns/p1" ⟨[], worldTwoPlans⟩).2.state.plans :=
  ⟨rfl,
   (reconcileServicePlanKey_only_deletes_keyed_plan "ns/p1" worldTwoPlans).1,
   (reconcileServicePlanKey_only_deletes_keyed_plan "ns/p1" worldTwoPlans).2.2.2.1
     planRemovedP2 (by decide) (by
       intro ns name h
       have h2 : SplitMetaNamespaceKey "ns/p1" = .ok ("ns", "p1") := rfl
       rw [h2] at h
       injection h with h
       injection h with h3 h4
       subst h3 h4
       rfl)⟩

/-! ## The delete handler -/

/-- C13: for every object handed to it (a service plan, a nil plan pointer, a
tombstone, an explicit key, the nil interface or a value of another type) and
every handler state, `servicePlanDelete` leaves the service plan queue as it
was (no key is added) and leaves the call log and the outside world as they
were (no lookup, no dependency query, no delete: no reconciliation is
triggered); for anything but a non-nil service plan it changes nothing at
all, and for a service plan its only effect is one more log line. -/
theorem servicePlanDelete_no_processing {σ : Type} (obj : Obj) (st : HandlerState σ) :
    (servicePlanDelete obj st).servicePlanQueue = st.servicePlanQueue ∧
    (servicePlanDelete obj st).trace.calls = st.trace.calls ∧
    (servicePlanDelete obj st).trace.state = st.trace.state ∧
    ((∀ p, obj ≠ .servicePlan p) → (servicePlanDelete obj st).log = st.log) ∧
    (∀ p, obj = .servicePlan p → (servicePlanDelete obj st).log.length = st.log.length + 1) := by
  cases obj <;> simp [servicePlanDelete, Obj.toServicePlan]

/-- Witness of C13: a delete event for plan `ns/p1` and one for a nil plan
pointer leave the queue with its one pending key and the call log empty. -/
theorem servicePlanDelete_no_processing_witness :
    (servicePlanDelete (.servicePlan planRemoved) handlerStateIdle).servicePlanQueue = ["ns/p2"] ∧
    (servicePlanDelete (.servicePlan planRemoved) handlerStateIdle).trace.calls = [] ∧
    (servicePlanDelete Obj.nilServicePlan handlerStateIdle).log = [] :=
  ⟨(servicePlanDelete_no_processing (.servicePlan planRemoved) handlerStateIdle).1,
   (servicePlanDelete_no_processing (.servicePlan planRemoved) handlerStateIdle).2.1,
   (servicePlanDelete_no_processing Obj.nilServicePlan handlerStateIdle).2.2.2.1
     (fun _ h => Obj.noConfusion h)⟩

/-! ## Namespaces and the dependency query -/

theorem reconcileServicePlan_delete_call_iff {σ : Type} (c : Collaborators σ) (s : σ)
    (plan : ServicePlan) :
    (∃ call ∈ (reconcileServicePlan c plan ⟨[], s⟩).2.calls, call.isDelete = true) ↔
      plan.Status.RemovedFromBrokerCatalog = true ∧
      ∃ l, (findServiceInstancesOnServicePlan c plan ⟨[], s⟩).1 = .ok l ∧ l.Items.length = 0 := by
  rcases hflag : plan.Status.RemovedFromBrokerCatalog with _ | _
  · rw [reconcileServicePlan_active c plan _ hflag]
    simp
  · rcases hq : (findServiceInstancesOnServicePlan c plan ⟨[], s⟩).1 with e | l
    · rw [reconcileServicePlan_query_error c plan _ e hflag hq,
        findServiceInstancesOnServicePlan_calls]
      simp [Call.isDelete, dependencyQueryCall]
    · by_cases hl : l.Items.length = 0
      · rw [reconcileServicePlan_free c plan _ l hflag hq hl]
        have hnil : l.Items = [] := List.length_eq_zero.mp hl
        simp [Call.isDelete, dependencyQueryCall, deleteCall, hnil]
      · rw [reconcileServicePlan_in_use c plan _ l hflag hq hl,
          findServiceInstancesOnServicePlan_calls]
        have hne : l.Items ≠ [] := fun h0 => hl (by simp [h0])
        simp [Call.isDelete, dependencyQueryCall, hne]

theorem findServiceInstancesOnServicePlan_congr_name {σ : Type} (c : Collaborators σ)
    (t : Trace σ) (p q : ServicePlan) (hname : p.ObjectMeta.Name = q.ObjectMeta.Name) :
    findServiceInstancesOnServicePlan c p t = findServiceInstancesOnServicePlan c q t := by
  simp [findServiceInstancesOnServicePlan, hname]

theorem world_referenced_no_delete (w : World) (p : ServicePlan)
    (href : ∃ i ∈ w.instances, i.ServicePlanRefName = p.ObjectMeta.Name) :
    ∀ call ∈ (reconcileServicePlan World.collaborators p ⟨[], w⟩).2.calls,
      call.isDelete = false := by
  intro call hmem
  cases hdel : call.isDelete with
  | false => rfl
  | true =>
    exfalso
    obtain ⟨_, l, hq, hl⟩ :=
      (reconcileServicePlan_delete_call_iff World.collaborators w p).mp ⟨call, hmem, hdel⟩
    rw [world_find_result] at hq
    injection hq with hq
    subst hq
    obtain ⟨i, hi, hiref⟩ := href
    have hsel : i ∈ w.instances.filter (ServiceInstance.selected NamespaceAll
        { FieldSelector :=
            SelectorFromSetString "spec.servicePlanRef.name" p.ObjectMeta.Name }) := by
      simp [List.mem_filter, hi, ServiceInstance.selected, hiref]
    have hnil := List.length_eq_zero.mp hl
    simp only at hnil
    rw [hnil] at hsel
    exact List.not_mem_nil _ hsel

/-- C14, as the code has it: for two plans with equal names (whatever their
namespaces), `findServiceInstancesOnServicePlan` makes the same list call and
gets the same answer from the same state; when the two plans also agree on
the removed-from-catalog flag, `reconcileServicePlan` issues a delete call for
the one if and only if it does for the other; and in the in-memory world an
instance that references the name blocks the deletion of both, whatever their
flags. -/
theorem reconcileServicePlan_namespace_blind {σ : Type} (c : Collaborators σ) (s : σ)
    (p q : ServicePlan) (hname : p.ObjectMeta.Name = q.ObjectMeta.Name) :
    dependencyQueryCall p = dependencyQueryCall q ∧
    findServiceInstancesOnServicePlan c p ⟨[], s⟩ =
      findServiceInstancesOnServicePlan c q ⟨[], s⟩ ∧
    (p.Status.RemovedFromBrokerCatalog = q.Status.RemovedFromBrokerCatalog →
      ((∃ call ∈ (reconcileServicePlan c p ⟨[], s⟩).2.calls, call.isDelete = true) ↔
        (∃ call ∈ (reconcileServicePlan c q ⟨[], s⟩).2.calls, call.isDelete = true))) ∧
    (∀ w : World, (∃ i ∈ w.instances, i.ServicePlanRefName = p.ObjectMeta.Name) →
      (∀ call ∈ (reconcileServicePlan World.collaborators p ⟨[], w⟩).2.calls,
        call.isDelete = false) ∧
      (∀ call ∈ (reconcileServicePlan World.collaborators q ⟨[], w⟩).2.calls,
        call.isDelete = false)) := by
  refine ⟨by simp [dependencyQueryCall, hname],
    findServiceInstancesOnServicePlan_congr_name c _ p q hname, ?_, ?_⟩
  · intro hflag
    rw [reconcileServicePlan_delete_call_iff, reconcileServicePlan_delete_call_iff,
      findServiceInstancesOnServicePlan_congr_name c _ p q hname, hflag]
  · intro w href
    refine ⟨world_referenced_no_delete w p href, world_referenced_no_delete w q ?_⟩
    rw [← hname]
    exact href

/-- Witness of the amended C14: plans `ns/p1` and `other/p1`, both removed
from the catalog, get the same dependency query; unreferenced, both are
deleted; with an instance on `p1`, neither is. -/
theorem reconcileServicePlan_namespace_blind_witness :
    dependencyQueryCall planRemoved = dependencyQueryCall planRemovedOther ∧
    ((∃ call ∈ (reconcileServicePlan World.collaborators planRemoved
          ⟨[], worldRemovedFree⟩).2.calls, call.isDelete = true) ↔
      (∃ call ∈ (reconcileServicePlan World.collaborators planRemovedOther
          ⟨[], worldRemovedFree⟩).2.calls, call.isDelete = true)) ∧
    (∀ call ∈ (reconcileServicePlan World.collaborators planRemovedOther
        ⟨[], worldRemovedInUse⟩).2.calls, call.isDelete = false) :=
  ⟨(reconcileServicePlan_namespace_blind World.collaborators worldRemovedFree
      planRemoved planRemovedOther rfl).1,
   (reconcileServicePlan_namespace_blind World.collaborators worldRemovedFree
      planRemoved planRemovedOther rfl).2.2.1 rfl,
   ((reconcileServicePlan_namespace_blind World.collaborators worldRemovedFree
      planRemoved planRemovedOther rfl).2.2.2 worldRemovedInUse
      ⟨instanceOnP1, by decide, rfl⟩).2⟩

/-- Counterexample to C14 as stated: plans `ns/p1` (removed from the catalog)
and `other/p1` (still in it) have equal names and different namespaces and
get the same dependency query, but over the same world without instances
`reconcileServicePlan` issues a delete call for the first and makes no call
for the second. -/
theorem reconcileServicePlan_decision_needs_flag :
    planRemoved.ObjectMeta.Name = planActiveOther.ObjectMeta.Name ∧
    planRemoved.ObjectMeta.Namespace ≠ planActiveOther.ObjectMeta.Namespace ∧
    dependencyQueryCall planRemoved = dependencyQueryCall planActiveOther ∧
    (reconcileServicePlan World.collaborators planRemoved ⟨[], worldRemovedFree⟩).2.calls =
      [dependencyQueryCall planRemoved, Call.delete "ns" "p1"] ∧
    (reconcileServicePlan World.collaborators planActiveOther ⟨[], worldRemovedFree⟩).2.calls =
      [] := by
  refine ⟨rfl, ?_, rfl, rfl, rfl⟩
  decide

end ServiceCatalog
